import Mathlib

/-!
Verification of the gouroboros mini-protocol core: the ChainSync protocol
definition (state map and configuration) and the Handshake client, embedded
shallowly from the Go source.  Go `time.Duration` values are nanosecond
counts modelled as `Nat`; Go `interface{}` payloads produced by the CBOR
codec are modelled by the dynamic value type `GoValue`; a Go runtime fault
(failed type assertion or out-of-range index) is modelled as `Except.error`.
-/

/-- Scalar dynamic value appearing inside a decoded CBOR array. -/
inductive GoElem where
  | u64 : Nat → GoElem
  | str : String → GoElem
  | boolean : Bool → GoElem
  deriving DecidableEq, Repr

/-- Dynamic value as produced by the CBOR codec for Go `interface{}` slots
(the slots the claims touch hold scalars or one-level arrays of scalars). -/
inductive GoValue where
  | u64 : Nat → GoValue
  | str : String → GoValue
  | boolean : Bool → GoValue
  | list : List GoElem → GoValue
  deriving DecidableEq, Repr

/-- A Go runtime fault: a failed type assertion or an out-of-range index. -/
inductive RuntimeFault where
  | typeAssertionFailure : RuntimeFault
  deriving DecidableEq, Repr

namespace Protocol

/-- Agency constants of the protocol package (`protocol.AgencyClient` etc.). -/
inductive Agency where
  | client : Agency
  | server : Agency
  | none : Agency
  deriving DecidableEq, Repr

/-- A protocol state, built by `protocol.NewState(id, name)`. -/
structure State where
  Id : Nat
  Name : String
  deriving DecidableEq, Repr

/-- `protocol.NewState` constructs a state from an id and a name. -/
def NewState (id : Nat) (name : String) : State := ⟨id, name⟩

/-- One entry of `StateMapEntry.Transitions`, parametrised by the protocol's
message-type discriminant type. -/
structure StateTransition (μ : Type) where
  MsgType : μ
  NewState : State
  deriving DecidableEq

/-- `protocol.StateMapEntry`: agency, outgoing transitions, optional timeout
(nanoseconds; 0 is the Go zero value meaning no timeout). -/
structure StateMapEntry (μ : Type) where
  Agency : Agency
  Transitions : List (StateTransition μ) := []
  Timeout : Nat := 0
  deriving DecidableEq

/-- `protocol.StateMap`: a Go map from states to entries, modelled as an
association list in the order of the source's map literal. -/
def StateMap (μ : Type) := List (State × StateMapEntry μ)

/-- Lookup in a `StateMap`, the read side of Go's `m[k]` on the map. -/
def StateMap.lookup {μ : Type} (m : StateMap μ) (s : State) : Option (StateMapEntry μ) :=
  match m with
  | [] => Option.none
  | (s0, e0) :: rest => if s0 = s then some e0 else StateMap.lookup rest s

/-- Association-list update, the write side of Go's `m[k] = v` on the map
(overwrites an existing key, otherwise appends). -/
def StateMap.setEntry {μ : Type} (m : StateMap μ) (s : State) (e : StateMapEntry μ) :
    StateMap μ :=
  match m with
  | [] => [(s, e)]
  | (s0, e0) :: rest =>
    if s0 = s then (s, e) :: rest else (s0, e0) :: StateMap.setEntry rest s e

/-- Modelled from the spec: `protocol.StateMap.Copy` (protocol package, not
under src/) produces an independent map holding the same entries, so that
later mutation of the copy does not affect the original; as a value it is
the identity. -/
def StateMap.Copy {μ : Type} (m : StateMap μ) : StateMap μ := m

instance {μ : Type} [DecidableEq μ] : DecidableEq (StateMap μ) :=
  inferInstanceAs (DecidableEq (List (State × StateMapEntry μ)))

/-- `protocol.ProtocolMode`. -/
inductive ProtocolMode where
  | nodeToNode : ProtocolMode
  | nodeToClient : ProtocolMode
  deriving DecidableEq, Repr

end Protocol

namespace ChainSync

/-- Go `time.Second` in nanoseconds. -/
def timeSecond : Nat := 1000000000

/-- ChainSync message-type discriminants (message constants of the chainsync
package; the claims depend only on their identities, not their numeric
values). -/
inductive MsgType where
  | RequestNext
  | AwaitReply
  | RollForward
  | RollBackward
  | FindIntersect
  | IntersectFound
  | IntersectNotFound
  | Done
  deriving DecidableEq, Repr

open Protocol

def stateIdle : State := NewState 1 "Idle"
def stateCanAwait : State := NewState 2 "CanAwait"
def stateMustReply : State := NewState 3 "MustReply"
def stateIntersect : State := NewState 4 "Intersect"
def stateDone : State := NewState 5 "Done"

/-- The ChainSync protocol state machine (`chainsync.StateMap`), transcribed
from the source's map literal. -/
def StateMap : Protocol.StateMap MsgType :=
  [ (stateIdle,
      { Agency := Agency.client
        Transitions :=
          [ { MsgType := MsgType.RequestNext, NewState := stateCanAwait }
          , { MsgType := MsgType.FindIntersect, NewState := stateIntersect }
          , { MsgType := MsgType.Done, NewState := stateDone } ] })
  , (stateCanAwait,
      { Agency := Agency.server
        Transitions :=
          [ { MsgType := MsgType.AwaitReply, NewState := stateMustReply }
          , { MsgType := MsgType.RollForward, NewState := stateIdle }
          , { MsgType := MsgType.RollBackward, NewState := stateIdle } ] })
  , (stateIntersect,
      { Agency := Agency.server
        Transitions :=
          [ { MsgType := MsgType.IntersectFound, NewState := stateIdle }
          , { MsgType := MsgType.IntersectNotFound, NewState := stateIdle } ] })
  , (stateMustReply,
      { Agency := Agency.server
        Transitions :=
          [ { MsgType := MsgType.RollForward, NewState := stateIdle }
          , { MsgType := MsgType.RollBackward, NewState := stateIdle } ] })
  , (stateDone, { Agency := Agency.none }) ]

/-- `common.Point`: origin or a (slot, hash) position. -/
inductive Point where
  | origin : Point
  | block : Nat → List Nat → Point
  deriving DecidableEq, Repr

/-- `chainsync.Tip`: a point plus a block number. -/
structure Tip where
  Point : Point
  BlockNumber : Nat
  deriving DecidableEq, Repr

/-- `chainsync.RollBackwardFunc` callback type; the `Option String` result is
the Go `error` return. -/
def RollBackwardFunc := Point → Tip → Option String

/-- `chainsync.RollForwardFunc` callback type. -/
def RollForwardFunc := Nat → GoValue → Tip → Option String

/-- `chainsync.Config`; nil-able callback fields become `Option`. -/
structure Config where
  RollBackwardFunc : Option RollBackwardFunc := Option.none
  RollForwardFunc : Option RollForwardFunc := Option.none
  IntersectTimeout : Nat := 0
  BlockTimeout : Nat := 0
  PipelineLimit : Int := 0

/-- `chainsync.ChainSyncOptionFunc`: mutates a `Config` in place, modelled as
a function on configs. -/
def ChainSyncOptionFunc := Config → Config

/-- `chainsync.NewConfig`: the defaults literal followed by applying each
option in order. -/
def NewConfig (options : List ChainSyncOptionFunc) : Config :=
  let c : Config :=
    { PipelineLimit := 0
      IntersectTimeout := 5 * timeSecond
      BlockTimeout := 180 * timeSecond }
  options.foldl (fun c option => option c) c

/-- `chainsync.WithRollBackwardFunc`. -/
def WithRollBackwardFunc (rollBackwardFunc : RollBackwardFunc) : ChainSyncOptionFunc :=
  fun c => { c with RollBackwardFunc := some rollBackwardFunc }

/-- `chainsync.WithRollForwardFunc`. -/
def WithRollForwardFunc (rollForwardFunc : RollForwardFunc) : ChainSyncOptionFunc :=
  fun c => { c with RollForwardFunc := some rollForwardFunc }

/-- `chainsync.WithIntersectTimeout`. -/
def WithIntersectTimeout (timeout : Nat) : ChainSyncOptionFunc :=
  fun c => { c with IntersectTimeout := timeout }

/-- `chainsync.WithBlockTimeout`. -/
def WithBlockTimeout (timeout : Nat) : ChainSyncOptionFunc :=
  fun c => { c with BlockTimeout := timeout }

/-- `chainsync.WithPipelineLimit`. -/
def WithPipelineLimit (limit : Int) : ChainSyncOptionFunc :=
  fun c => { c with PipelineLimit := limit }

end ChainSync

namespace Handshake

open Protocol

/-- Modelled from the spec: `handshake.ProtocolName` (handshake package file
not under src/), the name used as prefix of the client's error strings. -/
def ProtocolName : String := "handshake"

/-- Modelled from the spec: `DiffusionModeInitiatorOnly` — on the wire the
NodeToNode diffusion-mode field is a boolean, `false` = InitiatorOnly. -/
def DiffusionModeInitiatorOnly : Bool := false

/-- Modelled from the spec: `DiffusionModeInitiatorAndResponder` — `true` =
InitiatorAndResponder. -/
def DiffusionModeInitiatorAndResponder : Bool := true

/-- Modelled from the spec: refusal-reason discriminants (messages file not
under src/); the reason union lists VersionMismatch, DecodeError, Refused in
this order and the spec's refuse scenario uses discriminant 0 for
VersionMismatch. -/
def RefuseReasonVersionMismatch : Nat := 0

/-- Modelled from the spec: see `RefuseReasonVersionMismatch`. -/
def RefuseReasonDecodeError : Nat := 1

/-- Modelled from the spec: see `RefuseReasonVersionMismatch`. -/
def RefuseReasonRefused : Nat := 2

/-- `handshake.FinishedFunc`: completion callback `finished(version,
fullDuplex)`; the `Option String` result is the Go `error` return. -/
def FinishedFunc := Nat → Bool → Option String

/-- `handshake.Config` with the fields the client consumes: proposed protocol
versions, network magic, full-duplex preference, Confirm-state timeout and
the nil-able completion callback. -/
structure Config where
  ProtocolVersions : List Nat := []
  NetworkMagic : Nat := 0
  ClientFullDuplex : Bool := false
  Timeout : Nat := 0
  FinishedFunc : Option FinishedFunc := Option.none

/-- Handshake message-type discriminants. -/
inductive MsgType where
  | ProposeVersions
  | AcceptVersion
  | Refuse
  deriving DecidableEq, Repr

/-- Modelled from the spec: the handshake state machine (handshake package
file not under src/) — Propose (Client) goes via ProposeVersions to Confirm;
Confirm (Server) goes via AcceptVersion or Refuse to Done; Done has no
agency. -/
def statePropose : State := NewState 1 "Propose"

/-- Modelled from the spec: see `statePropose`. -/
def stateConfirm : State := NewState 2 "Confirm"

/-- Modelled from the spec: see `statePropose`. -/
def stateDone : State := NewState 3 "Done"

/-- Modelled from the spec: the handshake package-level `StateMap`, per the
spec's handshake state table (see `statePropose`). -/
def StateMap : Protocol.StateMap MsgType :=
  [ (statePropose,
      { Agency := Agency.client
        Transitions := [ { MsgType := MsgType.ProposeVersions, NewState := stateConfirm } ] })
  , (stateConfirm,
      { Agency := Agency.server
        Transitions :=
          [ { MsgType := MsgType.AcceptVersion, NewState := stateDone }
          , { MsgType := MsgType.Refuse, NewState := stateDone } ] })
  , (stateDone, { Agency := Agency.none }) ]

/-- `handshake.MsgProposeVersions`, carrying the proposed version map.  The
Go `map[uint16]interface{}` is modelled as an association list built by
`mapInsert`. -/
structure MsgProposeVersions where
  VersionMap : List (Nat × GoValue)
  deriving DecidableEq, Repr

/-- `handshake.NewMsgProposeVersions`. -/
def NewMsgProposeVersions (versionMap : List (Nat × GoValue)) : MsgProposeVersions :=
  ⟨versionMap⟩

/-- `handshake.MsgAcceptVersion`: accepted version plus opaque version data. -/
structure MsgAcceptVersion where
  Version : Nat
  VersionData : GoValue

/-- `handshake.MsgRefuse`: the decoded reason array. -/
structure MsgRefuse where
  Reason : List GoValue

/-- Go map insert `m[k] = v` on an association list: overwrite the existing
key or append a new binding. -/
def mapInsert (m : List (Nat × GoValue)) (k : Nat) (v : GoValue) : List (Nat × GoValue) :=
  match m with
  | [] => [(k, v)]
  | (k0, v0) :: rest => if k0 = k then (k, v) :: rest else (k0, v0) :: mapInsert rest k v

/-- Go map lookup `m[k]` on an association list. -/
def mapLookup (m : List (Nat × GoValue)) (k : Nat) : Option GoValue :=
  match m with
  | [] => Option.none
  | (k0, v0) :: rest => if k0 = k then some v0 else mapLookup rest k

/-- The version map assembled by `Client.Start`: for each configured version,
NodeToNode gets `[networkMagic, diffusionMode]` and NodeToClient gets the
plain network magic. -/
def startVersionMap (cfg : Config) (mode : ProtocolMode) : List (Nat × GoValue) :=
  let diffusionMode :=
    if cfg.ClientFullDuplex then DiffusionModeInitiatorAndResponder
    else DiffusionModeInitiatorOnly
  cfg.ProtocolVersions.foldl
    (fun versionMap version =>
      if mode = ProtocolMode.nodeToNode then
        mapInsert versionMap version
          (GoValue.list [GoElem.u64 cfg.NetworkMagic, GoElem.boolean diffusionMode])
      else
        mapInsert versionMap version (GoValue.u64 cfg.NetworkMagic))
    []

/-- Observable client state for `Client.Start`: whether the underlying
protocol was started, the messages sent, and the `sync.Once` guard
(`onceStart`). -/
structure ClientState where
  protocolStarted : Bool
  sent : List MsgProposeVersions
  onceDone : Bool
  deriving DecidableEq, Repr

/-- A freshly constructed client: protocol not started, nothing sent. -/
def initialClientState : ClientState :=
  { protocolStarted := false, sent := [], onceDone := false }

/-- `Client.Start`: the body runs under `c.onceStart.Do`, so it executes only
on the first call; it starts the underlying protocol and sends the
`ProposeVersions` message built from the config. -/
def Start (cfg : Config) (mode : ProtocolMode) (c : ClientState) : ClientState :=
  if c.onceDone then c
  else
    { protocolStarted := true
      sent := c.sent ++ [NewMsgProposeVersions (startVersionMap cfg mode)]
      onceDone := true }

/-- Outcome of `Client.handleAcceptVersion`: either the configuration error
(no callback registered) or the invocation `finished(version, fullDuplex)`
recorded together with the callback's own result. -/
inductive AcceptOutcome where
  | noCallbackError : String → AcceptOutcome
  | finished : Nat → Bool → Option String → AcceptOutcome
  deriving DecidableEq

/-- `Client.handleAcceptVersion`: error if no `FinishedFunc` is configured;
otherwise compute `fullDuplex` (only inspected in NodeToNode mode, from the
second element of the version data) and call the callback. -/
def handleAcceptVersion (cfg : Config) (mode : ProtocolMode) (msg : MsgAcceptVersion) :
    Except RuntimeFault AcceptOutcome :=
  match cfg.FinishedFunc with
  | Option.none =>
    Except.ok (AcceptOutcome.noCallbackError
      "received handshake AcceptVersion message but no callback function is defined")
  | some finishedFunc =>
    if mode = ProtocolMode.nodeToNode then
      match msg.VersionData with
      | GoValue.list versionData =>
        match versionData.get? 1 with
        | some (GoElem.boolean b) =>
          let fullDuplex := if b = DiffusionModeInitiatorAndResponder then true else false
          Except.ok (AcceptOutcome.finished msg.Version fullDuplex
            (finishedFunc msg.Version fullDuplex))
        | _ => Except.error RuntimeFault.typeAssertionFailure
      | _ => Except.error RuntimeFault.typeAssertionFailure
    else
      Except.ok (AcceptOutcome.finished msg.Version false (finishedFunc msg.Version false))

/-- `Client.handleRefuse`: switch on the reason discriminant
(`msg.Reason[0].(uint64)`); the `some`-wrapped string is the non-nil Go
error, `Option.none` the nil error of the fall-through. -/
def handleRefuse (msg : MsgRefuse) : Except RuntimeFault (Option String) :=
  match msg.Reason.get? 0 with
  | some (GoValue.u64 d) =>
    if d = RefuseReasonVersionMismatch then
      Except.ok (some (ProtocolName ++ ": version mismatch"))
    else if d = RefuseReasonDecodeError then
      match msg.Reason.get? 2 with
      | some (GoValue.str s) => Except.ok (some (ProtocolName ++ ": decode error: " ++ s))
      | _ => Except.error RuntimeFault.typeAssertionFailure
    else if d = RefuseReasonRefused then
      match msg.Reason.get? 2 with
      | some (GoValue.str s) => Except.ok (some (ProtocolName ++ ": refused: " ++ s))
      | _ => Except.error RuntimeFault.typeAssertionFailure
    else
      Except.ok Option.none
  | _ => Except.error RuntimeFault.typeAssertionFailure

/-- A heap of handshake state-map objects: Go maps are references, so the
package-level `StateMap` lives at index 0 and `StateMap.Copy` allocates a
fresh cell. -/
abbrev Heap := List (Protocol.StateMap MsgType)

/-- Read the map object behind a reference. -/
def Heap.read (h : Heap) (r : Nat) : Protocol.StateMap MsgType :=
  List.getD h r []

/-- Overwrite the map object behind a reference. -/
def Heap.write (h : Heap) (r : Nat) (m : Protocol.StateMap MsgType) : Heap :=
  List.set h r m

/-- The heap effect of `NewClient`: `stateMap := StateMap.Copy()` allocates a
fresh cell holding a copy of the shared map at reference 0, then the
`stateConfirm` entry's timeout is updated on that fresh cell only. -/
def NewClientHeap (timeout : Nat) (h : Heap) : Heap :=
  let copied := Protocol.StateMap.Copy (Heap.read h 0)
  let r := List.length h
  let h1 : Heap := h ++ [copied]
  match Protocol.StateMap.lookup (Heap.read h1 r) stateConfirm with
  | some entry =>
    Heap.write h1 r
      (Protocol.StateMap.setEntry (Heap.read h1 r) stateConfirm { entry with Timeout := timeout })
  | Option.none => h1

end Handshake

/-- C1: The ChainSync client state machine consists of exactly the five
states Idle, CanAwait, MustReply, Intersect, Done with agencies Client,
Server, Server, Server, None respectively, and each state's outgoing
transitions are exactly those of the spec table. -/
theorem chainSync_stateMap_matches_spec_table :
    ChainSync.StateMap.length = 5 ∧
    ChainSync.StateMap.map Prod.fst =
      [ChainSync.stateIdle, ChainSync.stateCanAwait, ChainSync.stateIntersect,
        ChainSync.stateMustReply, ChainSync.stateDone] ∧
    ChainSync.StateMap.lookup ChainSync.stateIdle =
      some { Agency := Protocol.Agency.client
             Transitions :=
               [ ⟨ChainSync.MsgType.RequestNext, ChainSync.stateCanAwait⟩
               , ⟨ChainSync.MsgType.FindIntersect, ChainSync.stateIntersect⟩
               , ⟨ChainSync.MsgType.Done, ChainSync.stateDone⟩ ] } ∧
    ChainSync.StateMap.lookup ChainSync.stateCanAwait =
      some { Agency := Protocol.Agency.server
             Transitions :=
               [ ⟨ChainSync.MsgType.AwaitReply, ChainSync.stateMustReply⟩
               , ⟨ChainSync.MsgType.RollForward, ChainSync.stateIdle⟩
               , ⟨ChainSync.MsgType.RollBackward, ChainSync.stateIdle⟩ ] } ∧
    ChainSync.StateMap.lookup ChainSync.stateMustReply =
      some { Agency := Protocol.Agency.server
             Transitions :=
               [ ⟨ChainSync.MsgType.RollForward, ChainSync.stateIdle⟩
               , ⟨ChainSync.MsgType.RollBackward, ChainSync.stateIdle⟩ ] } ∧
    ChainSync.StateMap.lookup ChainSync.stateIntersect =
      some { Agency := Protocol.Agency.server
             Transitions :=
               [ ⟨ChainSync.MsgType.IntersectFound, ChainSync.stateIdle⟩
               , ⟨ChainSync.MsgType.IntersectNotFound, ChainSync.stateIdle⟩ ] } ∧
    ChainSync.StateMap.lookup ChainSync.stateDone =
      some { Agency := Protocol.Agency.none, Transitions := [] } := by
  refine ⟨rfl, rfl, ?_, ?_, ?_, ?_, ?_⟩ <;> rfl

/-- C7: A ChainSync config built by `NewConfig` with no options has
PipelineLimit 0, IntersectTimeout 5 seconds and BlockTimeout 180 seconds,
and each `With*` option changes only its own field. -/
theorem newConfig_defaults_and_option_frames :
    (ChainSync.NewConfig []).PipelineLimit = 0 ∧
    (ChainSync.NewConfig []).IntersectTimeout = 5 * ChainSync.timeSecond ∧
    (ChainSync.NewConfig []).BlockTimeout = 180 * ChainSync.timeSecond ∧
    (∀ (f : ChainSync.RollBackwardFunc) (c : ChainSync.Config),
      (ChainSync.WithRollBackwardFunc f c).RollBackwardFunc = some f ∧
      (ChainSync.WithRollBackwardFunc f c).RollForwardFunc = c.RollForwardFunc ∧
      (ChainSync.WithRollBackwardFunc f c).IntersectTimeout = c.IntersectTimeout ∧
      (ChainSync.WithRollBackwardFunc f c).BlockTimeout = c.BlockTimeout ∧
      (ChainSync.WithRollBackwardFunc f c).PipelineLimit = c.PipelineLimit) ∧
    (∀ (f : ChainSync.RollForwardFunc) (c : ChainSync.Config),
      (ChainSync.WithRollForwardFunc f c).RollForwardFunc = some f ∧
      (ChainSync.WithRollForwardFunc f c).RollBackwardFunc = c.RollBackwardFunc ∧
      (ChainSync.WithRollForwardFunc f c).IntersectTimeout = c.IntersectTimeout ∧
      (ChainSync.WithRollForwardFunc f c).BlockTimeout = c.BlockTimeout ∧
      (ChainSync.WithRollForwardFunc f c).PipelineLimit = c.PipelineLimit) ∧
    (∀ (t : Nat) (c : ChainSync.Config),
      (ChainSync.WithIntersectTimeout t c).IntersectTimeout = t ∧
      (ChainSync.WithIntersectTimeout t c).RollBackwardFunc = c.RollBackwardFunc ∧
      (ChainSync.WithIntersectTimeout t c).RollForwardFunc = c.RollForwardFunc ∧
      (ChainSync.WithIntersectTimeout t c).BlockTimeout = c.BlockTimeout ∧
      (ChainSync.WithIntersectTimeout t c).PipelineLimit = c.PipelineLimit) ∧
    (∀ (t : Nat) (c : ChainSync.Config),
      (ChainSync.WithBlockTimeout t c).BlockTimeout = t ∧
      (ChainSync.WithBlockTimeout t c).RollBackwardFunc = c.RollBackwardFunc ∧
      (ChainSync.WithBlockTimeout t c).RollForwardFunc = c.RollForwardFunc ∧
      (ChainSync.WithBlockTimeout t c).IntersectTimeout = c.IntersectTimeout ∧
      (ChainSync.WithBlockTimeout t c).PipelineLimit = c.PipelineLimit) ∧
    (∀ (n : Int) (c : ChainSync.Config),
      (ChainSync.WithPipelineLimit n c).PipelineLimit = n ∧
      (ChainSync.WithPipelineLimit n c).RollBackwardFunc = c.RollBackwardFunc ∧
      (ChainSync.WithPipelineLimit n c).RollForwardFunc = c.RollForwardFunc ∧
      (ChainSync.WithPipelineLimit n c).IntersectTimeout = c.IntersectTimeout ∧
      (ChainSync.WithPipelineLimit n c).BlockTimeout = c.BlockTimeout) := by
  refine ⟨rfl, rfl, rfl, ?_, ?_, ?_, ?_, ?_⟩ <;>
    exact fun x c => ⟨rfl, rfl, rfl, rfl, rfl⟩

namespace Examples

/-- A concrete completion callback for witnesses. -/
def fEx : Handshake.FinishedFunc := fun _ _ => Option.none

/-- A concrete handshake config with a registered callback. -/
def cfgEx : Handshake.Config :=
  { ProtocolVersions := [1, 2], NetworkMagic := 764824073, ClientFullDuplex := true,
    Timeout := 0, FinishedFunc := some fEx }

/-- A concrete handshake config with no registered callback. -/
def cfgNoCb : Handshake.Config := { ProtocolVersions := [1], NetworkMagic := 42 }

/-- A concrete NodeToNode `AcceptVersion` message granting full duplex. -/
def msgAcceptNtN : Handshake.MsgAcceptVersion :=
  { Version := 7, VersionData := GoValue.list [GoElem.u64 764824073, GoElem.boolean true] }

end Examples

/-- C2: With a completion callback registered, `handleAcceptVersion` invokes
it as `finished(version, fullDuplex)` where `fullDuplex` is true iff the mode
is NodeToNode and the second version-data element equals
InitiatorAndResponder; in NodeToClient mode `fullDuplex` is always false. -/
theorem handleAcceptVersion_invokes_finished
    (cfg : Handshake.Config) (mode : Protocol.ProtocolMode)
    (msg : Handshake.MsgAcceptVersion) (f : Handshake.FinishedFunc)
    (h : cfg.FinishedFunc = some f) :
    (mode = Protocol.ProtocolMode.nodeToClient →
      Handshake.handleAcceptVersion cfg mode msg =
        Except.ok (Handshake.AcceptOutcome.finished msg.Version false
          (f msg.Version false))) ∧
    (∀ (vd : List GoElem) (b : Bool),
      mode = Protocol.ProtocolMode.nodeToNode →
      msg.VersionData = GoValue.list vd →
      vd.get? 1 = some (GoElem.boolean b) →
      Handshake.handleAcceptVersion cfg mode msg =
        Except.ok (Handshake.AcceptOutcome.finished msg.Version
          (if b = Handshake.DiffusionModeInitiatorAndResponder then true else false)
          (f msg.Version
            (if b = Handshake.DiffusionModeInitiatorAndResponder then true else false)))) := by
  constructor
  · intro hm
    subst hm
    simp [Handshake.handleAcceptVersion, h]
  · intro vd b hm hvd hget
    subst hm
    rw [List.get?_eq_getElem?] at hget
    simp [Handshake.handleAcceptVersion, h, hvd, hget]

/-- Witness for C2: the NodeToNode full-duplex accept scenario evaluated at
concrete inputs. -/
theorem handleAcceptVersion_invokes_finished_witness :
    Handshake.handleAcceptVersion Examples.cfgEx Protocol.ProtocolMode.nodeToNode
        Examples.msgAcceptNtN =
      Except.ok (Handshake.AcceptOutcome.finished 7
        (if true = Handshake.DiffusionModeInitiatorAndResponder then true else false)
        (Examples.fEx 7
          (if true = Handshake.DiffusionModeInitiatorAndResponder then true else false))) :=
  (handleAcceptVersion_invokes_finished Examples.cfgEx Protocol.ProtocolMode.nodeToNode
      Examples.msgAcceptNtN Examples.fEx rfl).2
    [GoElem.u64 764824073, GoElem.boolean true] true rfl rfl rfl

/-- C3: Receiving `AcceptVersion` with no completion callback registered
returns a configuration error and never reaches the callback-invocation
path. -/
theorem handleAcceptVersion_no_callback_is_error
    (cfg : Handshake.Config) (mode : Protocol.ProtocolMode)
    (msg : Handshake.MsgAcceptVersion) (h : cfg.FinishedFunc = Option.none) :
    Handshake.handleAcceptVersion cfg mode msg =
      Except.ok (Handshake.AcceptOutcome.noCallbackError
        "received handshake AcceptVersion message but no callback function is defined") ∧
    ∀ (v : Nat) (fd : Bool) (r : Option String),
      Handshake.handleAcceptVersion cfg mode msg ≠
        Except.ok (Handshake.AcceptOutcome.finished v fd r) := by
  have hmain : Handshake.handleAcceptVersion cfg mode msg =
      Except.ok (Handshake.AcceptOutcome.noCallbackError
        "received handshake AcceptVersion message but no callback function is defined") := by
    simp [Handshake.handleAcceptVersion, h]
  refine ⟨hmain, ?_⟩
  intro v fd r hc
  rw [hmain] at hc
  simp at hc

/-- Witness for C3: a concrete config with no callback. -/
theorem handleAcceptVersion_no_callback_is_error_witness :
    Handshake.handleAcceptVersion Examples.cfgNoCb Protocol.ProtocolMode.nodeToClient
        Examples.msgAcceptNtN =
      Except.ok (Handshake.AcceptOutcome.noCallbackError
        "received handshake AcceptVersion message but no callback function is defined") ∧
    ∀ (v : Nat) (fd : Bool) (r : Option String),
      Handshake.handleAcceptVersion Examples.cfgNoCb Protocol.ProtocolMode.nodeToClient
          Examples.msgAcceptNtN ≠
        Except.ok (Handshake.AcceptOutcome.finished v fd r) :=
  handleAcceptVersion_no_callback_is_error Examples.cfgNoCb
    Protocol.ProtocolMode.nodeToClient Examples.msgAcceptNtN rfl

/-- Counterexample for C4: two VersionMismatch refusals with different
supported-version lists produce the same error, and two DecodeError refusals
with different versions produce the same error — so the surfaced error
carries neither the supported-version list nor the version. -/
theorem handleRefuse_payload_not_carried :
    Handshake.handleRefuse
        ⟨[GoValue.u64 0, GoValue.list [GoElem.u64 4, GoElem.u64 5, GoElem.u64 6]]⟩ =
      Handshake.handleRefuse ⟨[GoValue.u64 0, GoValue.list [GoElem.u64 7]]⟩ ∧
    GoValue.list [GoElem.u64 4, GoElem.u64 5, GoElem.u64 6] ≠ GoValue.list [GoElem.u64 7] ∧
    Handshake.handleRefuse ⟨[GoValue.u64 1, GoValue.u64 4, GoValue.str "bad"]⟩ =
      Handshake.handleRefuse ⟨[GoValue.u64 1, GoValue.u64 9, GoValue.str "bad"]⟩ ∧
    GoValue.u64 4 ≠ GoValue.u64 9 :=
  ⟨rfl, by decide, rfl, by decide⟩

/-- C4 amended: `handleRefuse` surfaces an error selected by the reason
discriminant: VersionMismatch yields a fixed "version mismatch" error that
does not include the supported-version list; DecodeError and Refused carry
the message string (the third reason element) but not the version. -/
theorem handleRefuse_error_by_discriminant :
    (∀ rest : List GoValue,
      Handshake.handleRefuse ⟨GoValue.u64 Handshake.RefuseReasonVersionMismatch :: rest⟩ =
        Except.ok (some (Handshake.ProtocolName ++ ": version mismatch"))) ∧
    (∀ (v : GoValue) (s : String) (rest : List GoValue),
      Handshake.handleRefuse
          ⟨GoValue.u64 Handshake.RefuseReasonDecodeError :: v :: GoValue.str s :: rest⟩ =
        Except.ok (some (Handshake.ProtocolName ++ ": decode error: " ++ s))) ∧
    (∀ (v : GoValue) (s : String) (rest : List GoValue),
      Handshake.handleRefuse
          ⟨GoValue.u64 Handshake.RefuseReasonRefused :: v :: GoValue.str s :: rest⟩ =
        Except.ok (some (Handshake.ProtocolName ++ ": refused: " ++ s))) :=
  ⟨fun _ => rfl, fun _ _ _ => rfl, fun _ _ _ => rfl⟩

/-- C10: A Refuse message whose reason discriminant is none of
VersionMismatch, DecodeError or Refused makes `handleRefuse` return the nil
error, silently accepting the refusal. -/
theorem handleRefuse_unknown_reason_returns_nil
    (d : Nat) (rest : List GoValue)
    (h1 : d ≠ Handshake.RefuseReasonVersionMismatch)
    (h2 : d ≠ Handshake.RefuseReasonDecodeError)
    (h3 : d ≠ Handshake.RefuseReasonRefused) :
    Handshake.handleRefuse ⟨GoValue.u64 d :: rest⟩ = Except.ok Option.none := by
  simp [Handshake.handleRefuse, h1, h2, h3]

/-- Witness for C10: discriminant 3 is unknown and yields the nil error. -/
theorem handleRefuse_unknown_reason_returns_nil_witness :
    Handshake.handleRefuse ⟨[GoValue.u64 3]⟩ = Except.ok Option.none :=
  handleRefuse_unknown_reason_returns_nil 3 [] (by decide) (by decide) (by decide)

namespace Handshake

theorem mapLookup_mapInsert (m : List (Nat × GoValue)) (k j : Nat) (v : GoValue) :
    mapLookup (mapInsert m k v) j = if k = j then some v else mapLookup m j := by
  induction m with
  | nil => simp [mapInsert, mapLookup]
  | cons hd tl ih =>
    obtain ⟨k0, v0⟩ := hd
    by_cases hk : k0 = k
    · subst hk
      simp only [mapInsert, if_pos rfl, mapLookup]
      by_cases hj : k0 = j
      · subst hj
        simp [mapLookup]
      · simp [mapLookup, hj]
    · simp only [mapInsert, if_neg hk, mapLookup]
      by_cases hj : k0 = j
      · subst hj
        have : ¬k = k0 := fun h => hk h.symm
        simp [this]
      · simp [hj, ih]

theorem mapLookup_foldl_mapInsert (g : Nat → GoValue) (l : List Nat) (m : List (Nat × GoValue))
    (j : Nat) :
    mapLookup (l.foldl (fun acc k => mapInsert acc k (g k)) m) j =
      if j ∈ l then some (g j) else mapLookup m j := by
  induction l generalizing m with
  | nil => simp
  | cons k ks ih =>
    simp only [List.foldl_cons, ih, mapLookup_mapInsert, List.mem_cons]
    by_cases hks : j ∈ ks
    · simp [hks]
    · by_cases hjk : j = k
      · subst hjk
        simp [hks]
      · have : ¬k = j := fun h => hjk h.symm
        simp [hks, hjk, this]

/-- The per-version value `Client.Start` enters into the proposed version
map. -/
def startVersionValue (cfg : Config) (mode : Protocol.ProtocolMode) : GoValue :=
  if mode = Protocol.ProtocolMode.nodeToNode then
    GoValue.list [GoElem.u64 cfg.NetworkMagic,
      GoElem.boolean (if cfg.ClientFullDuplex then DiffusionModeInitiatorAndResponder
        else DiffusionModeInitiatorOnly)]
  else GoValue.u64 cfg.NetworkMagic

theorem startVersionMap_eq_foldl (cfg : Config) (mode : Protocol.ProtocolMode) :
    startVersionMap cfg mode =
      cfg.ProtocolVersions.foldl
        (fun acc k => mapInsert acc k (startVersionValue cfg mode)) [] := by
  simp only [startVersionMap, startVersionValue]
  congr 1
  funext acc k
  by_cases hm : mode = Protocol.ProtocolMode.nodeToNode <;> simp [hm]

end Handshake

/-- C5: On Start, the proposed version map assigns to every configured
version: in NodeToNode mode the two-element value [networkMagic,
diffusionMode] with diffusionMode = InitiatorAndResponder exactly when
ClientFullDuplex is set, InitiatorOnly otherwise; in NodeToClient mode the
plain network magic. -/
theorem start_versionMap_assigns_each_version
    (cfg : Handshake.Config) (mode : Protocol.ProtocolMode) (v : Nat)
    (hv : v ∈ cfg.ProtocolVersions) :
    Handshake.mapLookup (Handshake.startVersionMap cfg mode) v =
      some (if mode = Protocol.ProtocolMode.nodeToNode then
              GoValue.list [GoElem.u64 cfg.NetworkMagic,
                GoElem.boolean (if cfg.ClientFullDuplex then
                    Handshake.DiffusionModeInitiatorAndResponder
                  else Handshake.DiffusionModeInitiatorOnly)]
            else GoValue.u64 cfg.NetworkMagic) := by
  rw [Handshake.startVersionMap_eq_foldl, Handshake.mapLookup_foldl_mapInsert]
  simp [hv, Handshake.startVersionValue]

/-- Witness for C5: the concrete config proposing versions 1 and 2 with full
duplex, looked up at version 2 in NodeToNode mode. -/
theorem start_versionMap_assigns_each_version_witness :
    Handshake.mapLookup
        (Handshake.startVersionMap Examples.cfgEx Protocol.ProtocolMode.nodeToNode) 2 =
      some (if Protocol.ProtocolMode.nodeToNode = Protocol.ProtocolMode.nodeToNode then
              GoValue.list [GoElem.u64 Examples.cfgEx.NetworkMagic,
                GoElem.boolean (if Examples.cfgEx.ClientFullDuplex then
                    Handshake.DiffusionModeInitiatorAndResponder
                  else Handshake.DiffusionModeInitiatorOnly)]
            else GoValue.u64 Examples.cfgEx.NetworkMagic) :=
  start_versionMap_assigns_each_version Examples.cfgEx Protocol.ProtocolMode.nodeToNode 2
    (by decide)

namespace Handshake

theorem keys_mapInsert (m : List (Nat × GoValue)) (k : Nat) (v : GoValue) :
    (mapInsert m k v).map Prod.fst =
      if k ∈ m.map Prod.fst then m.map Prod.fst else m.map Prod.fst ++ [k] := by
  induction m with
  | nil => simp [mapInsert]
  | cons hd tl ih =>
    obtain ⟨k0, v0⟩ := hd
    by_cases hk : k0 = k
    · subst hk
      simp [mapInsert]
    · have hne : ¬k = k0 := fun h => hk h.symm
      simp only [mapInsert, if_neg hk, List.map_cons, List.mem_cons, hne, false_or]
      by_cases hmem : k ∈ tl.map Prod.fst <;> simp [hmem, ih]

theorem nodup_keys_mapInsert (m : List (Nat × GoValue)) (k : Nat) (v : GoValue)
    (h : (m.map Prod.fst).Nodup) : ((mapInsert m k v).map Prod.fst).Nodup := by
  rw [keys_mapInsert]
  by_cases hmem : k ∈ m.map Prod.fst
  · simpa [hmem] using h
  · simp [hmem, List.nodup_append, h]

theorem nodup_keys_foldl_mapInsert (g : Nat → GoValue) (l : List Nat)
    (m : List (Nat × GoValue)) (h : (m.map Prod.fst).Nodup) :
    ((l.foldl (fun acc k => mapInsert acc k (g k)) m).map Prod.fst).Nodup := by
  induction l generalizing m with
  | nil => simpa using h
  | cons k ks ih => exact ih _ (nodup_keys_mapInsert _ _ _ h)

theorem nodup_keys_startVersionMap (cfg : Config) (mode : Protocol.ProtocolMode) :
    ((startVersionMap cfg mode).map Prod.fst).Nodup := by
  rw [startVersionMap_eq_foldl]
  exact nodup_keys_foldl_mapInsert _ _ [] (by simp)

/-- Modelled from the spec: the wire encoding of `MsgProposeVersions` (the
message codec, not under src/) emits the version-map keys in ascending
numeric order; this function gives the emitted key sequence. -/
def emittedVersionMapKeys (msg : MsgProposeVersions) : List Nat :=
  List.insertionSort (· ≤ ·) (msg.VersionMap.map Prod.fst)

end Handshake

/-- C6: In the ProposeVersions message sent on Start, the emitted
version-number keys are exactly the keys of the assembled version map, in
strictly ascending numeric order. -/
theorem proposeVersions_keys_ascending (cfg : Handshake.Config)
    (mode : Protocol.ProtocolMode) :
    List.Sorted (· < ·)
      (Handshake.emittedVersionMapKeys
        (Handshake.NewMsgProposeVersions (Handshake.startVersionMap cfg mode))) ∧
    List.Perm
      (Handshake.emittedVersionMapKeys
        (Handshake.NewMsgProposeVersions (Handshake.startVersionMap cfg mode)))
      ((Handshake.startVersionMap cfg mode).map Prod.fst) := by
  have hperm :
      List.Perm
        (Handshake.emittedVersionMapKeys
          (Handshake.NewMsgProposeVersions (Handshake.startVersionMap cfg mode)))
        ((Handshake.startVersionMap cfg mode).map Prod.fst) :=
    List.perm_insertionSort _ _
  refine ⟨?_, hperm⟩
  have hs : List.Sorted (· ≤ ·)
      (Handshake.emittedVersionMapKeys
        (Handshake.NewMsgProposeVersions (Handshake.startVersionMap cfg mode))) :=
    List.sorted_insertionSort _ _
  have hnd : (Handshake.emittedVersionMapKeys
      (Handshake.NewMsgProposeVersions (Handshake.startVersionMap cfg mode))).Nodup :=
    hperm.nodup_iff.mpr (Handshake.nodup_keys_startVersionMap cfg mode)
  exact (hs.and hnd).imp fun h => lt_of_le_of_ne h.1 h.2

/-- C8: `Client.Start` is idempotent — the `sync.Once` guard makes every call
after the first a no-op, so from a fresh client any positive number of calls
starts the protocol and sends exactly one ProposeVersions message. -/
theorem start_idempotent_sends_once
    (cfg : Handshake.Config) (mode : Protocol.ProtocolMode) (c : Handshake.ClientState)
    (n : Nat) (h : 1 ≤ n) :
    Handshake.Start cfg mode (Handshake.Start cfg mode c) = Handshake.Start cfg mode c ∧
    (Handshake.Start cfg mode)^[n] Handshake.initialClientState =
      { protocolStarted := true
        sent := [Handshake.NewMsgProposeVersions (Handshake.startVersionMap cfg mode)]
        onceDone := true } := by
  have hfix : ∀ s : Handshake.ClientState, s.onceDone = true →
      Handshake.Start cfg mode s = s := by
    intro s hs
    simp [Handshake.Start, hs]
  have hidem : ∀ s : Handshake.ClientState,
      Handshake.Start cfg mode (Handshake.Start cfg mode s) = Handshake.Start cfg mode s := by
    intro s
    by_cases hs : s.onceDone
    · rw [hfix s hs, hfix s hs]
    · apply hfix
      simp [Handshake.Start, hs]
  refine ⟨hidem c, ?_⟩
  obtain ⟨m, rfl⟩ : ∃ m, n = m + 1 := ⟨n - 1, by omega⟩
  rw [Function.iterate_succ_apply]
  have h1 : Handshake.Start cfg mode Handshake.initialClientState =
      { protocolStarted := true
        sent := [Handshake.NewMsgProposeVersions (Handshake.startVersionMap cfg mode)]
        onceDone := true } := by
    simp [Handshake.Start, Handshake.initialClientState]
  rw [h1]
  exact Function.iterate_fixed (hfix _ rfl) m

/-- Witness for C8: three Start calls on a fresh client with a concrete
config leave exactly one sent ProposeVersions message. -/
theorem start_idempotent_sends_once_witness :
    Handshake.Start Examples.cfgEx Protocol.ProtocolMode.nodeToClient
        (Handshake.Start Examples.cfgEx Protocol.ProtocolMode.nodeToClient
          Handshake.initialClientState) =
      Handshake.Start Examples.cfgEx Protocol.ProtocolMode.nodeToClient
        Handshake.initialClientState ∧
    (Handshake.Start Examples.cfgEx Protocol.ProtocolMode.nodeToClient)^[3]
        Handshake.initialClientState =
      { protocolStarted := true
        sent := [Handshake.NewMsgProposeVersions
          (Handshake.startVersionMap Examples.cfgEx Protocol.ProtocolMode.nodeToClient)]
        onceDone := true } :=
  start_idempotent_sends_once Examples.cfgEx Protocol.ProtocolMode.nodeToClient
    Handshake.initialClientState 3 (by decide)

theorem newClientHeap_preserves_head (t : Nat) (a : Protocol.StateMap Handshake.MsgType)
    (tl : Handshake.Heap) :
    (Handshake.NewClientHeap t (a :: tl)).get? 0 = some a := by
  simp only [Handshake.NewClientHeap, Handshake.Heap.read, Handshake.Heap.write]
  split
  · simp [List.set]
  · simp

theorem foldl_newClientHeap_head (ts : List Nat) :
    ∀ (h : Handshake.Heap) (a : Protocol.StateMap Handshake.MsgType),
      h.get? 0 = some a →
      (ts.foldl (fun acc t => Handshake.NewClientHeap t acc) h).get? 0 = some a := by
  induction ts with
  | nil =>
    intro h a ha
    simpa using ha
  | cons t ts ih =>
    intro h a ha
    cases h with
    | nil => simp at ha
    | cons hd tl =>
      have hhd : hd = a := by simpa using ha
      subst hhd
      simp only [List.foldl_cons]
      exact ih _ hd (newClientHeap_preserves_head t hd tl)

/-- C9: Constructing handshake clients never mutates the shared package-level
`StateMap`: for any sequence of configured timeouts, the heap cell holding
the shared map still holds its initial value, even though each constructed
client's own copy is really updated (second conjunct). -/
theorem newClient_leaves_shared_stateMap (ts : List Nat) :
    (ts.foldl (fun acc t => Handshake.NewClientHeap t acc) [Handshake.StateMap]).get? 0 =
      some Handshake.StateMap ∧
    (Handshake.NewClientHeap 42 [Handshake.StateMap]).read 1 ≠ Handshake.StateMap := by
  refine ⟨foldl_newClientHeap_head ts [Handshake.StateMap] Handshake.StateMap rfl, ?_⟩
  decide
